import Mathlib

set_option maxRecDepth 4000000

/-!
Verification of the lightmap / recursive shadowcasting core of the
dungeongeneration repository (src/lib/gameobjects/systems/lightmap.js).

The JavaScript is embedded shallowly: positions are integers (`ℤ`), the
floating-point slope arithmetic of the scan is modelled with exact
rationals (`ℚ`), the mutable accumulator `this.tiles` is threaded as an
explicit list, and the recursion of `calculateOctant` is driven by a fuel
argument that the top-level `calculate` instantiates with `radius + 1`
(an upper bound on the nesting depth of the JS recursion, whose `row`
argument strictly increases and never exceeds `radius` at a spawn site).
Every `doesTileBlock` read performed by the scan is additionally logged so
that the bounds-safety claim can be stated.
-/

namespace LightMap

/-- One entry of the accumulator `this.tiles`: a pending
`(x, y, lightLevel)` write. -/
structure LitTile where
  x : ℤ
  y : ℤ
  lightLevel : ℚ
  deriving DecidableEq, Repr

/-- The `lightSource` component data read by the system. -/
structure LightSource where
  radius : ℕ
  gradient : Bool
  deriving DecidableEq, Repr

/-- The `position` component data read by the system. -/
structure Position where
  x : ℤ
  y : ℤ
  deriving DecidableEq, Repr

/-- An entity carrying both a `lightSource` and a `position` component. -/
structure Entity where
  lightSource : LightSource
  position : Position
  deriving DecidableEq, Repr

/-- Scan-time accumulator: the pending tile writes (`this.tiles` in the JS)
together with a log of every coordinate passed to `doesTileBlock`. -/
structure ScanAcc where
  out : List LitTile
  reads : List (ℤ × ℤ)
  deriving DecidableEq, Repr

/-- Append one pending tile write, mirroring `this.tiles.push(...)`. -/
def pushT (acc : ScanAcc) (x y : ℤ) (l : ℚ) : ScanAcc :=
  { acc with out := acc.out ++ [⟨x, y, l⟩] }

/-- Log one `doesTileBlock` read. -/
def logRead (acc : ScanAcc) (x y : ℤ) : ScanAcc :=
  { acc with reads := acc.reads ++ [(x, y)] }

/-- The inputs of one octant scan that stay fixed throughout the recursion:
map size (`this.mapSize`), the `blockLight` view of the grid, the light
source, its origin, and the four octant multipliers. -/
structure OctEnv where
  sizeX : ℤ
  sizeY : ℤ
  block : ℤ → ℤ → Bool
  ls : LightSource
  px : ℤ
  py : ℤ
  xx : ℤ
  xy : ℤ
  yx : ℤ
  yy : ℤ

/-- The in-bounds predicate of line 154 of lightmap.js:
`X < this.mapSize.x && X >= 0 && Y < this.mapSize.y && Y >= 0`. -/
def InB (sizeX sizeY X Y : ℤ) : Prop :=
  X < sizeX ∧ 0 ≤ X ∧ Y < sizeY ∧ 0 ≤ Y

instance (sizeX sizeY X Y : ℤ) : Decidable (InB sizeX sizeY X Y) := by
  unfold InB; infer_instance

/-- The bounds test applied with the map size of a scan environment. -/
def inBounds (env : OctEnv) (X Y : ℤ) : Prop :=
  InB env.sizeX env.sizeY X Y

instance (env : OctEnv) (X Y : ℤ) : Decidable (inBounds env X Y) := by
  unfold inBounds; infer_instance

/-- The light level written for a reached tile (line 172 of lightmap.js):
`1` for a flat source, `1 - d / radius²` for a gradient source, where `d`
is the squared distance recomputed from the grid coordinates. -/
def lightAt (ls : LightSource) (px py X Y : ℤ) : ℚ :=
  if ls.gradient = false then 1
  else
    1 - (((X - px) * (X - px) + (Y - py) * (Y - py) : ℤ) : ℚ) /
      ((ls.radius : ℚ) * (ls.radius : ℚ))

/-- The mutable state of the inner `while(dx <= 0)` column sweep:
accumulator, the `start` slope (mutated in place by the JS), `newStart`,
the per-row `blocked` flag, and whether the sweep has hit `break`. -/
structure ColState where
  acc : ScanAcc
  start : ℚ
  newStart : ℚ
  blocked : Bool
  broke : Bool

/-- One iteration of the column sweep of `calculateOctant`
(lines 147-194 of lightmap.js) at offset `dx`, with `recur` standing for
the recursive `calculateOctant` call made when a fresh obstruction is
found. -/
def colStep (env : OctEnv) (recur : ℕ → ℚ → ℚ → ScanAcc → ScanAcc)
    (end_ : ℚ) (i : ℕ) (dy : ℤ) (s : ColState) (dx : ℤ) : ColState :=
  if s.broke then s else
  let X : ℤ := env.px + dx * env.xx + dy * env.xy
  let Y : ℤ := env.py + dx * env.yx + dy * env.yy
  if inBounds env X Y then
    let lSlope : ℚ := ((dx : ℚ) - 1/2) / ((dy : ℚ) + 1/2)
    let rSlope : ℚ := ((dx : ℚ) + 1/2) / ((dy : ℚ) - 1/2)
    if s.start < rSlope then s
    else if end_ > lSlope then { s with broke := true }
    else
      let acc1 :=
        if dx * dx + dy * dy < (env.ls.radius : ℤ) * (env.ls.radius : ℤ) then
          pushT s.acc X Y (lightAt env.ls env.px env.py X Y)
        else s.acc
      if s.blocked then
        if env.block X Y then
          { s with acc := logRead acc1 X Y, newStart := rSlope }
        else
          { s with acc := logRead acc1 X Y, blocked := false, start := s.newStart }
      else
        if env.block X Y ∧ i < env.ls.radius then
          let acc2 := recur (i + 1) s.start lSlope (logRead acc1 X Y)
          { s with acc := acc2, blocked := true, newStart := rSlope }
        else
          { s with acc := logRead acc1 X Y }
  else s

/-- The mutable state carried from one row of the octant sweep to the
next: accumulator, `start`, `newStart`, and whether the outer `for` loop
has hit its `if (blocked) break`. -/
structure RowState where
  acc : ScanAcc
  start : ℚ
  newStart : ℚ
  stopped : Bool

/-- The list of `dx` offsets visited by the inner sweep of row `i`:
`dx` starts at `-i - 1` and is incremented before use, so the visited
values are `-i, …, 0`. -/
def dxList (i : ℕ) : List ℤ :=
  (List.range (i + 1)).map (fun k => (k : ℤ) - (i : ℤ))

/-- One row of the outer `for(var i = row; i < radius + 1; i++)` sweep of
`calculateOctant`, including the trailing `if (blocked) break`. -/
def rowStep (env : OctEnv) (recur : ℕ → ℚ → ℚ → ScanAcc → ScanAcc)
    (end_ : ℚ) (rs : RowState) (i : ℕ) : RowState :=
  if rs.stopped then rs else
  let dy : ℤ := -(i : ℤ)
  let cs := (dxList i).foldl (colStep env recur end_ i dy)
    ⟨rs.acc, rs.start, rs.newStart, false, false⟩
  ⟨cs.acc, cs.start, cs.newStart, cs.blocked⟩

/-- `LightMap.prototype.calculateOctant`, lines 125-202 of lightmap.js,
with explicit fuel bounding the recursion depth (the JS recursion is
finite because every recursive call strictly increases `row`). On entry
the origin tile is pushed at light level 0, then the degenerate-wedge
check `start < end` runs, then the nested row/column sweep. -/
def calcOctantF (env : OctEnv) : ℕ → ℕ → ℚ → ℚ → ScanAcc → ScanAcc
  | 0, _, _, _, acc =>
    pushT acc env.px env.py 0
  | f + 1, row, start, end_, acc =>
    let acc1 := pushT acc env.px env.py 0
    if start < end_ then acc1
    else
      ((List.range' row (env.ls.radius + 1 - row)).foldl
        (rowStep env (fun r s e a => calcOctantF env f r s e a) end_)
        ⟨acc1, start, 0, false⟩).acc

/-- The octant multiplier table `this.mult` (lines 35-40 of lightmap.js),
presented column-wise as the eight `(xx, xy, yx, yy)` tuples that
`calculate` feeds to `calculateOctant`. -/
def mult : List (ℤ × ℤ × ℤ × ℤ) :=
  [(1, 0, 0, 1), (0, 1, 1, 0), (0, -1, 1, 0), (-1, 0, 0, 1),
   (-1, 0, 0, -1), (0, -1, -1, 0), (0, 1, -1, 0), (1, 0, 0, -1)]

/-- Build the fixed scan environment for one light source from map size,
`blockLight` view, source data, origin and one multiplier column. -/
def mkEnv (sizeX sizeY : ℤ) (block : ℤ → ℤ → Bool) (ls : LightSource)
    (pos : Position) (m : ℤ × ℤ × ℤ × ℤ) : OctEnv :=
  ⟨sizeX, sizeY, block, ls, pos.x, pos.y, m.1, m.2.1, m.2.2.1, m.2.2.2⟩

/-- `LightMap.prototype.calculate`, lines 232-250 of lightmap.js: run
`calculateOctant` once per multiplier column starting at
`row = 1, start = 1.0, end = 0.0`, then push the source tile itself at
light level 1. -/
def calculate (sizeX sizeY : ℤ) (block : ℤ → ℤ → Bool) (ls : LightSource)
    (pos : Position) (acc : ScanAcc) : ScanAcc :=
  let acc1 := mult.foldl
    (fun a m => calcOctantF (mkEnv sizeX sizeY block ls pos m) (ls.radius + 1) 1 1 0 a)
    acc
  pushT acc1 pos.x pos.y 1

/-- One tile of the external map grid: the `blockLight` field the scan
reads and the `lightLevel` / `explored` fields it writes. -/
structure Tile where
  blockLight : Bool
  lightLevel : ℚ
  explored : Bool
  deriving DecidableEq, Repr

/-- The whole game state this system touches: the map size snapshot taken
by the constructor, the tile grid, the accumulator `this.tiles`, the
`tilesLit` flag, the `game.isActive` flag, and the entity list returned
by `getEntities("lightSource", "position")`. -/
structure GameState where
  sizeX : ℤ
  sizeY : ℤ
  grid : ℤ → ℤ → Tile
  lmTiles : List LitTile
  tilesLit : Bool
  isActive : Bool
  entities : List Entity

/-- `LightMap.prototype.doesTileBlock`, lines 115-119 of lightmap.js. -/
def doesTileBlock (s : GameState) (x y : ℤ) : Bool :=
  (s.grid x y).blockLight

/-- `LightMap.prototype.clear`, lines 210-221 of lightmap.js: zero the
light level of every entry of the internal buffer, swap the buffer for an
empty one, and return the old (now zeroed) buffer. The map grid is never
touched. -/
def clear (buf : List LitTile) : List LitTile × List LitTile :=
  (buf.map (fun e => { e with lightLevel := 0 }), [])

/-- Write one pending `(x, y, lightLevel)` entry into the grid, also
setting `explored` to true (lines 99-100 of lightmap.js). -/
def writeTile (g : ℤ → ℤ → Tile) (e : LitTile) : ℤ → ℤ → Tile :=
  fun a b =>
    if a = e.x ∧ b = e.y then
      { g a b with lightLevel := e.lightLevel, explored := true }
    else g a b

/-- Apply a whole pending-write list to the grid, in list order (the JS
`for(var l = 0; l < newLight.length; l++)` loop), so a later entry for the
same coordinate wins. -/
def applyWrites (g : ℤ → ℤ → Tile) (L : List LitTile) : ℤ → ℤ → Tile :=
  L.foldl writeTile g

/-- The result of `this.calculate(...)` as invoked by `handleSingleEntity`
on game state `s`: the scan of one entity, starting from the freshly
emptied accumulator, reading the live grid through `doesTileBlock`. -/
def scanAcc (s : GameState) (ent : Entity) : ScanAcc :=
  calculate s.sizeX s.sizeY (fun x y => doesTileBlock s x y)
    ent.lightSource ent.position ⟨[], []⟩

/-- The pending-write list produced by one entity's scan. -/
def scanOut (s : GameState) (ent : Entity) : List LitTile :=
  (scanAcc s ent).out

/-- The `newLight` list of `handleSingleEntity` (line 94 of lightmap.js):
the zeroed previous buffer concatenated with the fresh scan output. -/
def entityNewLight (s : GameState) (ent : Entity) : List LitTile :=
  (clear s.lmTiles).1 ++ scanOut s ent

/-- The coordinates read through `doesTileBlock` while processing one
entity. -/
def entityReads (s : GameState) (ent : Entity) : List (ℤ × ℤ) :=
  (scanAcc s ent).reads

/-- `LightMap.prototype.handleSingleEntity`, lines 87-104 of lightmap.js:
`newLight = clear().concat(calculate(...))`, then write every entry into
the map and mark it explored; the internal buffer afterwards holds the
fresh scan output. -/
def handleSingleEntity (s : GameState) (ent : Entity) : GameState :=
  { s with
    grid := applyWrites s.grid (entityNewLight s ent)
    lmTiles := scanOut s ent }

/-- `LightMap.prototype.update`, lines 55-79 of lightmap.js: when the game
is active, process every light-bearing entity and set `tilesLit`; when
inactive with `tilesLit` set, call `clear()` — whose returned (zeroed)
buffer is discarded, so only the internal buffer and the flag change —
and reset the flag; otherwise do nothing. -/
def update (s : GameState) : GameState :=
  if s.isActive then
    { s.entities.foldl handleSingleEntity s with tilesLit := true }
  else if s.tilesLit then
    { s with lmTiles := (clear s.lmTiles).2, tilesLit := false }
  else s

/-- Run a sequence of ticks, each tick supplying the externally controlled
`game.isActive` flag and the entity list returned by the entity query. -/
def runTicks (s : GameState) (ts : List (Bool × List Entity)) : GameState :=
  ts.foldl (fun st t => update { st with isActive := t.1, entities := t.2 }) s

/-- All tile accesses of one active tick: the concatenation, over the
processed entities, of the pending writes committed to the map and of the
coordinates read through `doesTileBlock`, with the game state threaded
exactly as `update` threads it. -/
def tickAccesses (s : GameState) : List LitTile × List (ℤ × ℤ) :=
  (s.entities.foldl
    (fun p ent =>
      (handleSingleEntity p.1 ent,
       p.2.1 ++ entityNewLight p.1 ent,
       p.2.2 ++ entityReads p.1 ent))
    (s, ([], []))).2

/-- The light level a pending-write list finally leaves at a coordinate:
the level of the last entry for that coordinate, if any (the write loop of
`handleSingleEntity` applies entries in order, so the last one wins). -/
def lastWrite : List LitTile → ℤ → ℤ → Option ℚ
  | [], _, _ => none
  | e :: t, x, y =>
    match lastWrite t x y with
    | some lv => some lv
    | none => if x = e.x ∧ y = e.y then some e.lightLevel else none

/-- Classification of every entry the octant scan can push: either the
origin placeholder pushed on entry to `calculateOctant` (or the final
source push of `calculate`), or an in-bounds tile strictly inside the
radius carrying the level formula of line 172. -/
def GoodPush (sizeX sizeY : ℤ) (ls : LightSource) (px py : ℤ)
    (e : LitTile) : Prop :=
  (e.x = px ∧ e.y = py ∧ (e.lightLevel = 0 ∨ e.lightLevel = 1)) ∨
  (InB sizeX sizeY e.x e.y ∧
    (e.x - px) * (e.x - px) + (e.y - py) * (e.y - py) <
      (ls.radius : ℤ) * (ls.radius : ℤ) ∧
    e.lightLevel = lightAt ls px py e.x e.y)

/-- Accumulator growth: the scan only appends, every appended pending
write is a `GoodPush`, and every logged read is in bounds. -/
def ScanGrows (sizeX sizeY : ℤ) (ls : LightSource) (px py : ℤ)
    (a b : ScanAcc) : Prop :=
  ∃ l r, b.out = a.out ++ l ∧ (∀ e ∈ l, GoodPush sizeX sizeY ls px py e) ∧
    b.reads = a.reads ++ r ∧ (∀ c ∈ r, InB sizeX sizeY c.1 c.2)

/-- An all-open, unlit, unexplored tile. -/
def openTile : Tile := ⟨false, 0, false⟩

/-- The 5×5 open-map scenario of the spec: single source at `(2, 2)`,
`radius = 2`, `gradient = false`, all tiles open, unlit and unexplored. -/
def scene5 : GameState :=
  { sizeX := 5, sizeY := 5, grid := fun _ _ => openTile, lmTiles := [],
    tilesLit := false, isActive := true,
    entities := [⟨⟨2, false⟩, ⟨2, 2⟩⟩] }

/-- The concrete occlusion scenario: the same 5×5 map with tile `(2, 3)`
set `blockLight = true`. -/
def sceneOcc : GameState :=
  { scene5 with
    grid := fun x y => if x = 2 ∧ y = 3 then ⟨true, 0, false⟩ else openTile }

/-- A 5×14 map whose row `y = 12` is a full straight wall spanning the
whole width, with two further opaque tiles at `(0, 2)` and `(2, 5)` on the
source side of the wall; every other tile is open. -/
def leakGrid : ℤ → ℤ → Tile := fun x y =>
  if y = 12 ∨ (x = 0 ∧ y = 2) ∨ (x = 2 ∧ y = 5) then ⟨true, 0, false⟩
  else openTile

/-- The wall-leak scenario: source at `(0, 0)`, `radius = 14`,
`gradient = false`, on the `leakGrid` map. -/
def sceneLeak : GameState :=
  { sizeX := 5, sizeY := 14, grid := leakGrid, lmTiles := [],
    tilesLit := false, isActive := true,
    entities := [⟨⟨14, false⟩, ⟨0, 0⟩⟩] }

/-- The 5×5 scenario after one active tick. -/
def scene5Lit : GameState := update scene5

/-- The lit 5×5 scenario after a further tick with the game inactive. -/
def scene5AfterIdle : GameState := update { scene5Lit with isActive := false }

/-- The fresh 5×5 scenario with the game inactive. -/
def scene5Inactive : GameState := { scene5 with isActive := false }

/-- A flat-light entity at `(1, 2)` with radius 2. -/
def entA : Entity := ⟨⟨2, false⟩, ⟨1, 2⟩⟩

/-- A gradient-light entity at `(3, 2)` with radius 2. -/
def entB : Entity := ⟨⟨2, true⟩, ⟨3, 2⟩⟩

/-- A 5×5 open map carrying the two overlapping sources `entA` and
`entB`, processed in that order. -/
def sceneTwo : GameState :=
  { scene5 with entities := [entA, entB] }

/-- A second flat-light entity at `(2, 1)` with radius 2. -/
def entC : Entity := ⟨⟨2, false⟩, ⟨2, 1⟩⟩

/-- A 5×5 open map carrying three overlapping sources, processed in the
order `entC`, `entA`, `entB`. -/
def sceneThree : GameState :=
  { scene5 with entities := [entC, entA, entB] }

end LightMap

namespace LightMap

/-! ### Helper lemmas about the write-back loop -/

theorem writeTile_explored_mono (g : ℤ → ℤ → Tile) (e : LitTile) (x y : ℤ)
    (h : (g x y).explored = true) : ((writeTile g e) x y).explored = true := by
  unfold writeTile
  dsimp only
  split
  · rfl
  · exact h

theorem applyWrites_cons (g : ℤ → ℤ → Tile) (e : LitTile) (t : List LitTile) :
    applyWrites g (e :: t) = applyWrites (writeTile g e) t := rfl

theorem applyWrites_explored_mono (L : List LitTile) (g : ℤ → ℤ → Tile)
    (x y : ℤ) (h : (g x y).explored = true) :
    ((applyWrites g L) x y).explored = true := by
  induction L generalizing g with
  | nil => exact h
  | cons e t ih => exact ih (writeTile g e) (writeTile_explored_mono g e x y h)

theorem applyWrites_lastWrite (L : List LitTile) (g : ℤ → ℤ → Tile) (x y : ℤ) :
    (applyWrites g L) x y =
      match lastWrite L x y with
      | some lv => { g x y with lightLevel := lv, explored := true }
      | none => g x y := by
  induction L generalizing g with
  | nil => rfl
  | cons e t ih =>
    rw [applyWrites_cons, ih (writeTile g e)]
    cases hlw : lastWrite t x y with
    | some lv =>
      simp only [lastWrite, hlw]
      unfold writeTile
      dsimp only
      split
      · rfl
      · rfl
    | none =>
      simp only [lastWrite, hlw]
      unfold writeTile
      dsimp only
      split
      · rfl
      · rfl

theorem applyWrites_blockLight (L : List LitTile) (g : ℤ → ℤ → Tile)
    (x y : ℤ) : ((applyWrites g L) x y).blockLight = (g x y).blockLight := by
  rw [applyWrites_lastWrite]
  cases lastWrite L x y <;> rfl

theorem applyWrites_of_none (L : List LitTile) (g : ℤ → ℤ → Tile) (x y : ℤ)
    (h : lastWrite L x y = none) : (applyWrites g L) x y = g x y := by
  rw [applyWrites_lastWrite, h]

theorem applyWrites_of_some (L : List LitTile) (g : ℤ → ℤ → Tile) (x y : ℤ)
    (lv : ℚ) (h : lastWrite L x y = some lv) :
    ((applyWrites g L) x y).lightLevel = lv := by
  rw [applyWrites_lastWrite, h]

theorem lastWrite_append (A B : List LitTile) (x y : ℤ) :
    lastWrite (A ++ B) x y =
      match lastWrite B x y with
      | some lv => some lv
      | none => lastWrite A x y := by
  induction A with
  | nil =>
    rw [List.nil_append]
    cases h : lastWrite B x y
    · rfl
    · rfl
  | cons a t ih =>
    show lastWrite (a :: (t ++ B)) x y = _
    simp only [lastWrite, ih]
    cases h : lastWrite B x y <;> cases h2 : lastWrite t x y <;> rfl

theorem lastWrite_zeroed (T : List LitTile) (x y : ℤ) :
    lastWrite (T.map fun e => { e with lightLevel := 0 }) x y =
      (lastWrite T x y).map (fun _ => (0 : ℚ)) := by
  induction T with
  | nil => rfl
  | cons e t ih =>
    show lastWrite ({ e with lightLevel := 0 } :: t.map _) x y = _
    simp only [lastWrite, ih]
    cases h : lastWrite t x y with
    | some lv => rfl
    | none =>
      dsimp only [Option.map]
      split
      · rfl
      · rfl

end LightMap

namespace LightMap

/-! ### Explored-flag monotonicity machinery -/

theorem hse_explored_mono (s : GameState) (ent : Entity) (x y : ℤ)
    (h : (s.grid x y).explored = true) :
    ((handleSingleEntity s ent).grid x y).explored = true :=
  applyWrites_explored_mono _ s.grid x y h

theorem foldl_hse_explored_mono (l : List Entity) (s : GameState) (x y : ℤ)
    (h : (s.grid x y).explored = true) :
    ((l.foldl handleSingleEntity s).grid x y).explored = true := by
  induction l generalizing s with
  | nil => exact h
  | cons ent t ih => exact ih _ (hse_explored_mono s ent x y h)

theorem update_explored_mono (s : GameState) (x y : ℤ)
    (h : (s.grid x y).explored = true) :
    ((update s).grid x y).explored = true := by
  unfold update
  split
  · exact foldl_hse_explored_mono s.entities s x y h
  · split
    · exact h
    · exact h

theorem runTicks_explored_mono (s : GameState) (ts : List (Bool × List Entity))
    (x y : ℤ) (h : (s.grid x y).explored = true) :
    ((runTicks s ts).grid x y).explored = true := by
  induction ts generalizing s with
  | nil => exact h
  | cons t rest ih =>
    exact ih _ (update_explored_mono { s with isActive := t.1, entities := t.2 } x y h)

/-- C6: the `explored` flag is monotone: once a tile's `explored` flag is
true, it stays true across any sequence of ticks (active or idle) and
across any single entity-processing step; the only write this core
performs to `explored` assigns `true`. -/
theorem c6_explored_monotone (s : GameState) (ts : List (Bool × List Entity))
    (x y : ℤ) (h : (s.grid x y).explored = true) :
    ((runTicks s ts).grid x y).explored = true ∧
    ∀ ent : Entity, ((handleSingleEntity s ent).grid x y).explored = true :=
  ⟨runTicks_explored_mono s ts x y h, fun ent => hse_explored_mono s ent x y h⟩

/-- Witness for C6 at a concrete input: tile `(2, 2)` of the 5×5 scenario
is explored after the first active tick and stays explored through a
subsequent idle tick and a further entity pass. -/
theorem c6_explored_monotone_witness :
    ((runTicks scene5Lit [(false, [])]).grid 2 2).explored = true ∧
    ∀ ent : Entity, ((handleSingleEntity scene5Lit ent).grid 2 2).explored = true :=
  c6_explored_monotone scene5Lit [(false, [])] 2 2 (by with_unfolding_all decide)

/-- C10: a tick processed while the game is inactive modifies no field of
any map tile: whether or not `tilesLit` is set, `update` leaves every
tile of the grid (its `lightLevel`, `explored` and `blockLight`)
unchanged — `clear()` only zeroes and discards the internal accumulator. -/
theorem c10_idle_tick_preserves_map (s : GameState) (h : s.isActive = false)
    (x y : ℤ) : (update s).grid x y = s.grid x y := by
  unfold update
  rw [h]
  split
  · rename_i hc
    simp at hc
  · split
    · rfl
    · rfl

/-- Witness for C10 at a concrete input: an idle tick on the inactive 5×5
scenario leaves tile `(2, 2)` unchanged. -/
theorem c10_idle_tick_preserves_map_witness :
    (update scene5Inactive).grid 2 2 = scene5Inactive.grid 2 2 :=
  c10_idle_tick_preserves_map scene5Inactive rfl 2 2

/-- C1 (code behavior at the failing input): after an active tick on the
5×5 open scenario the source tile is lit and `tilesLit` is set; after the
following inactive tick — the exact transition the claim describes — the
map still reads `lightLevel = 1` at the previously lit tile `(2, 2)`,
not 0: `update` discards the buffer `clear()` returns instead of writing
the zeroed entries back to the map. The `explored` flag is unchanged. -/
theorem c1_clear_not_committed :
    scene5Lit.tilesLit = true ∧
    (scene5Lit.grid 2 2).lightLevel = 1 ∧
    scene5AfterIdle.tilesLit = false ∧
    (scene5AfterIdle.grid 2 2).lightLevel = 1 ∧
    ¬(scene5AfterIdle.grid 2 2).lightLevel = 0 ∧
    (scene5AfterIdle.grid 2 2).explored = (scene5Lit.grid 2 2).explored := by
  with_unfolding_all decide

/-- C3 (counterexample): in the 5×5 open scenario the corner tile
`(0, 0)` — squared distance 8 from the source — is never pushed by the
scan, so its `explored` flag is still `false` after the tick, while the
claim demands `explored = true` for all 25 tiles. -/
theorem c3_counterexample : (scene5Lit.grid 0 0).explored = false := by
  with_unfolding_all decide

/-- C3 (amended): after one active tick on the 5×5 open scenario, every
tile at squared distance < 4 from the source `(2, 2)` has
`lightLevel = 1` and `explored = true`, and every tile at squared
distance ≥ 4 has `lightLevel = 0` and `explored` still `false`. -/
theorem c3_open_map_scenario :
    ((List.range 5).all fun xi =>
      (List.range 5).all fun yi =>
        let d : ℤ := ((xi : ℤ) - 2) * ((xi : ℤ) - 2) +
          ((yi : ℤ) - 2) * ((yi : ℤ) - 2)
        decide ((scene5Lit.grid (xi : ℤ) (yi : ℤ)).lightLevel =
          if d < 4 then 1 else 0) &&
        decide ((scene5Lit.grid (xi : ℤ) (yi : ℤ)).explored = decide (d < 4))) =
      true := by
  with_unfolding_all decide

/-- C2 (counterexample): on the 5×14 `leakGrid` map the full row `y = 12`
is a straight wall of `blockLight = true` tiles spanning the whole map
width — it fully separates the source `(0, 0)` from tile `(4, 13)` with
no diagonal gap — yet the scan of the radius-14 source contributes a
nonzero entry for `(4, 13)`, and the tile ends the tick with
`lightLevel = 1`, refuting the universal occlusion claim. -/
theorem c2_counterexample :
    ((List.range 5).all fun xi => (leakGrid (xi : ℤ) 12).blockLight) = true ∧
    ((update sceneLeak).grid 4 13).lightLevel = 1 ∧
    ((scanOut sceneLeak ⟨⟨14, false⟩, ⟨0, 0⟩⟩).any fun e =>
      decide (e.x = 4 ∧ e.y = 13 ∧ ¬e.lightLevel = 0)) = true := by
  with_unfolding_all decide

/-- C2 (amended): occlusion as the spec's concrete scenario states it: on
the 5×5 map with blocker `(2, 3)` and flat source `(2, 2)` of radius 2,
the scan contributes no nonzero entry for tile `(2, 4)`, which ends the
tick with `lightLevel = 0`, while the blocker tile `(2, 3)` itself is
recorded before the block check and ends the tick with `lightLevel = 1`.
The universal form of the claim fails (see the counterexample): beyond a
certain geometry the wedge bookkeeping can set `start` below `end` and
later rows slip past a fully separating straight wall. -/
theorem c2_occlusion_scenario :
    ((update sceneOcc).grid 2 4).lightLevel = 0 ∧
    ((scanOut sceneOcc ⟨⟨2, false⟩, ⟨2, 2⟩⟩).all fun e =>
      decide (e.x = 2 ∧ e.y = 4 → e.lightLevel = 0)) = true ∧
    ((update sceneOcc).grid 2 3).lightLevel = 1 := by
  with_unfolding_all decide

end LightMap

namespace LightMap

/-! ### Scan growth: everything the octant scan appends is classified -/

theorem scanGrows_refl (sizeX sizeY : ℤ) (ls : LightSource) (px py : ℤ)
    (a : ScanAcc) : ScanGrows sizeX sizeY ls px py a a :=
  ⟨[], [], (List.append_nil a.out).symm, by simp,
    (List.append_nil a.reads).symm, by simp⟩

theorem scanGrows_trans {sizeX sizeY : ℤ} {ls : LightSource} {px py : ℤ}
    {a b c : ScanAcc} (h1 : ScanGrows sizeX sizeY ls px py a b)
    (h2 : ScanGrows sizeX sizeY ls px py b c) :
    ScanGrows sizeX sizeY ls px py a c := by
  obtain ⟨l1, r1, ho1, hg1, hr1, hb1⟩ := h1
  obtain ⟨l2, r2, ho2, hg2, hr2, hb2⟩ := h2
  refine ⟨l1 ++ l2, r1 ++ r2, ?_, ?_, ?_, ?_⟩
  · rw [ho2, ho1, List.append_assoc]
  · intro e he
    rcases List.mem_append.1 he with h | h
    · exact hg1 e h
    · exact hg2 e h
  · rw [hr2, hr1, List.append_assoc]
  · intro c hc
    rcases List.mem_append.1 hc with h | h
    · exact hb1 c h
    · exact hb2 c h

theorem scanGrows_pushT {sizeX sizeY : ℤ} {ls : LightSource} {px py : ℤ}
    (a : ScanAcc) (x y : ℤ) (l : ℚ)
    (h : GoodPush sizeX sizeY ls px py ⟨x, y, l⟩) :
    ScanGrows sizeX sizeY ls px py a (pushT a x y l) := by
  refine ⟨[⟨x, y, l⟩], [], rfl, ?_, (List.append_nil a.reads).symm, by simp⟩
  intro e he
  rw [List.mem_singleton] at he
  subst he
  exact h

theorem scanGrows_logRead {sizeX sizeY : ℤ} {ls : LightSource} {px py : ℤ}
    (a : ScanAcc) (x y : ℤ) (h : InB sizeX sizeY x y) :
    ScanGrows sizeX sizeY ls px py a (logRead a x y) := by
  refine ⟨[], [(x, y)], (List.append_nil a.out).symm, by simp, rfl, ?_⟩
  intro c hc
  rw [List.mem_singleton] at hc
  subst hc
  exact h

theorem scanGrows_foldl {σ α : Type} (sizeX sizeY : ℤ) (ls : LightSource)
    (px py : ℤ) (proj : σ → ScanAcc) (f : σ → α → σ) (L : List α)
    (h : ∀ st a, a ∈ L → ScanGrows sizeX sizeY ls px py (proj st) (proj (f st a))) :
    ∀ st, ScanGrows sizeX sizeY ls px py (proj st) (proj (L.foldl f st)) := by
  induction L with
  | nil => intro st; exact scanGrows_refl _ _ _ _ _ _
  | cons a t ih =>
    intro st
    exact scanGrows_trans (h st a (List.mem_cons_self a t))
      (ih (fun st' b hb => h st' b (List.mem_cons_of_mem a hb)) (f st a))

end LightMap

namespace LightMap

theorem colStep_grows (env : OctEnv) (recur : ℕ → ℚ → ℚ → ScanAcc → ScanAcc)
    (hrec : ∀ r s e a, ScanGrows env.sizeX env.sizeY env.ls env.px env.py a
      (recur r s e a))
    (hiso : ∀ a b : ℤ, (a * env.xx + b * env.xy) * (a * env.xx + b * env.xy) +
      (a * env.yx + b * env.yy) * (a * env.yx + b * env.yy) = a * a + b * b)
    (end_ : ℚ) (i : ℕ) (dy : ℤ) (st : ColState) (dx : ℤ) :
    ScanGrows env.sizeX env.sizeY env.ls env.px env.py st.acc
      ((colStep env recur end_ i dy st dx).acc) := by
  have hpush : ∀ a : ScanAcc,
      inBounds env (env.px + dx * env.xx + dy * env.xy)
        (env.py + dx * env.yx + dy * env.yy) →
      ScanGrows env.sizeX env.sizeY env.ls env.px env.py a
        (if dx * dx + dy * dy < (env.ls.radius : ℤ) * (env.ls.radius : ℤ) then
          pushT a (env.px + dx * env.xx + dy * env.xy)
            (env.py + dx * env.yx + dy * env.yy)
            (lightAt env.ls env.px env.py (env.px + dx * env.xx + dy * env.xy)
              (env.py + dx * env.yx + dy * env.yy))
        else a) := by
    intro a hin
    split
    · rename_i hg
      refine scanGrows_pushT a _ _ _ (Or.inr ⟨hin, ?_, rfl⟩)
      have hx : env.px + dx * env.xx + dy * env.xy - env.px =
          dx * env.xx + dy * env.xy := by ring
      have hy : env.py + dx * env.yx + dy * env.yy - env.py =
          dx * env.yx + dy * env.yy := by ring
      dsimp only
      rw [hx, hy, hiso dx dy]
      exact hg
    · exact scanGrows_refl _ _ _ _ _ _
  unfold colStep
  split
  · exact scanGrows_refl _ _ _ _ _ _
  · dsimp only
    split
    · rename_i hin
      split
      · exact scanGrows_refl _ _ _ _ _ _
      · split
        · exact scanGrows_refl _ _ _ _ _ _
        · split
          · split
            · exact scanGrows_trans (hpush st.acc hin)
                (scanGrows_logRead _ _ _ hin)
            · exact scanGrows_trans (hpush st.acc hin)
                (scanGrows_logRead _ _ _ hin)
          · split
            · exact scanGrows_trans (hpush st.acc hin)
                (scanGrows_trans (scanGrows_logRead _ _ _ hin) (hrec _ _ _ _))
            · exact scanGrows_trans (hpush st.acc hin)
                (scanGrows_logRead _ _ _ hin)
    · exact scanGrows_refl _ _ _ _ _ _

end LightMap

namespace LightMap

theorem rowStep_grows (env : OctEnv) (recur : ℕ → ℚ → ℚ → ScanAcc → ScanAcc)
    (hrec : ∀ r s e a, ScanGrows env.sizeX env.sizeY env.ls env.px env.py a
      (recur r s e a))
    (hiso : ∀ a b : ℤ, (a * env.xx + b * env.xy) * (a * env.xx + b * env.xy) +
      (a * env.yx + b * env.yy) * (a * env.yx + b * env.yy) = a * a + b * b)
    (end_ : ℚ) (rs : RowState) (i : ℕ) :
    ScanGrows env.sizeX env.sizeY env.ls env.px env.py rs.acc
      ((rowStep env recur end_ rs i).acc) := by
  unfold rowStep
  split
  · exact scanGrows_refl _ _ _ _ _ _
  · dsimp only
    exact scanGrows_foldl env.sizeX env.sizeY env.ls env.px env.py ColState.acc
      (colStep env recur end_ i (-(i : ℤ))) (dxList i)
      (fun st a _ => colStep_grows env recur hrec hiso end_ i (-(i : ℤ)) st a)
      ⟨rs.acc, rs.start, rs.newStart, false, false⟩

theorem calcOctantF_grows (env : OctEnv)
    (hiso : ∀ a b : ℤ, (a * env.xx + b * env.xy) * (a * env.xx + b * env.xy) +
      (a * env.yx + b * env.yy) * (a * env.yx + b * env.yy) = a * a + b * b) :
    ∀ (fuel row : ℕ) (start end_ : ℚ) (acc : ScanAcc),
    ScanGrows env.sizeX env.sizeY env.ls env.px env.py acc
      (calcOctantF env fuel row start end_ acc) := by
  intro fuel
  induction fuel with
  | zero =>
    intro row start end_ acc
    exact scanGrows_pushT acc _ _ _ (Or.inl ⟨rfl, rfl, Or.inl rfl⟩)
  | succ f ih =>
    intro row start end_ acc
    unfold calcOctantF
    dsimp only
    split
    · exact scanGrows_pushT acc _ _ _ (Or.inl ⟨rfl, rfl, Or.inl rfl⟩)
    · exact scanGrows_trans
        (scanGrows_pushT acc env.px env.py 0 (Or.inl ⟨rfl, rfl, Or.inl rfl⟩))
        (scanGrows_foldl env.sizeX env.sizeY env.ls env.px env.py RowState.acc
          (rowStep env (fun r s e a => calcOctantF env f r s e a) end_)
          (List.range' row (env.ls.radius + 1 - row))
          (fun st a _ => rowStep_grows env _ (fun r s e a => ih r s e a) hiso end_ st a)
          ⟨pushT acc env.px env.py 0, start, 0, false⟩)

theorem mult_iso : ∀ m ∈ mult, ∀ a b : ℤ,
    (a * m.1 + b * m.2.1) * (a * m.1 + b * m.2.1) +
      (a * m.2.2.1 + b * m.2.2.2) * (a * m.2.2.1 + b * m.2.2.2) = a * a + b * b := by
  intro m hm
  fin_cases hm <;> (intro a b; ring)

theorem calculate_grows (sizeX sizeY : ℤ) (block : ℤ → ℤ → Bool)
    (ls : LightSource) (pos : Position) (acc : ScanAcc) :
    ScanGrows sizeX sizeY ls pos.x pos.y acc
      (calculate sizeX sizeY block ls pos acc) := by
  unfold calculate
  dsimp only
  refine scanGrows_trans
    (scanGrows_foldl sizeX sizeY ls pos.x pos.y id
      (fun a m => calcOctantF (mkEnv sizeX sizeY block ls pos m)
        (ls.radius + 1) 1 1 0 a)
      mult ?_ acc)
    (scanGrows_pushT _ _ _ _ (Or.inl ⟨rfl, rfl, Or.inr rfl⟩))
  intro st m hm
  exact calcOctantF_grows (mkEnv sizeX sizeY block ls pos m) (mult_iso m hm)
    (ls.radius + 1) 1 1 0 st

theorem scanAcc_good (s : GameState) (ent : Entity) :
    (∀ e ∈ (scanAcc s ent).out, GoodPush s.sizeX s.sizeY ent.lightSource
      ent.position.x ent.position.y e) ∧
    (∀ c ∈ (scanAcc s ent).reads, InB s.sizeX s.sizeY c.1 c.2) := by
  obtain ⟨l, r, ho, hg, hr, hb⟩ := calculate_grows s.sizeX s.sizeY
    (fun x y => doesTileBlock s x y) ent.lightSource ent.position ⟨[], []⟩
  constructor
  · intro e he
    apply hg
    have h2 : (scanAcc s ent).out = l := by
      unfold scanAcc
      rw [ho]
      exact List.nil_append l
    rwa [h2] at he
  · intro c hc
    apply hb
    have h2 : (scanAcc s ent).reads = r := by
      unfold scanAcc
      rw [hr]
      exact List.nil_append r
    rwa [h2] at hc

/-- C4: no tile whose Euclidean distance from a source exceeds the
source's radius is ever assigned a nonzero `lightLevel` by that source's
scan: every entry of the scan output with nonzero level lies at squared
distance at most `radius²` from the source (strictly below for non-source
tiles, via the octant-local guard `dx² + dy² < radius²`, which equals the
true squared distance because each octant transform preserves the norm). -/
theorem c4_radius_bound (s : GameState) (ent : Entity) (e : LitTile)
    (he : e ∈ scanOut s ent) (hnz : ¬e.lightLevel = 0) :
    (e.x - ent.position.x) * (e.x - ent.position.x) +
      (e.y - ent.position.y) * (e.y - ent.position.y) ≤
      (ent.lightSource.radius : ℤ) * (ent.lightSource.radius : ℤ) := by
  rcases (scanAcc_good s ent).1 e he with ⟨hx, hy, h01⟩ | ⟨_, hd, _⟩
  · rcases h01 with h0 | _
    · exact absurd h0 hnz
    · rw [hx, hy]
      simp only [sub_self, mul_zero, zero_mul, add_zero]
      positivity
  · exact le_of_lt hd

/-- Witness for C4 at a concrete input: the entry `(1, 2, 1)` of the 5×5
scenario's scan is nonzero, and its squared distance 1 from the source is
at most `radius² = 4`. -/
theorem c4_radius_bound_witness :
    ((1 : ℤ) - 2) * ((1 : ℤ) - 2) + ((2 : ℤ) - 2) * ((2 : ℤ) - 2) ≤
      (((⟨2, false⟩ : LightSource).radius : ℤ) *
        ((⟨2, false⟩ : LightSource).radius : ℤ)) :=
  c4_radius_bound scene5 ⟨⟨2, false⟩, ⟨2, 2⟩⟩ ⟨1, 2, 1⟩
    (by with_unfolding_all decide) (by with_unfolding_all decide)

end LightMap

namespace LightMap

/-- C5: every entry of a source's scan output that is not at the source's
own coordinate is assigned exactly the level formula of line 172
evaluated at its coordinates — `1` when `gradient` is false,
`1 - d²/radius²` when it is true — (the only entries exempt are the
origin placeholders and the final source push, which sit at the source
coordinate), and after the entity's write-back the source's own tile
reads `lightLevel = 1` exactly: the source tile is appended last at
intensity 1 and the last write for a coordinate wins. -/
theorem c5_level_formula (s : GameState) (ent : Entity) :
    (∀ e ∈ scanOut s ent,
      (e.x = ent.position.x ∧ e.y = ent.position.y) ∨
      e.lightLevel = lightAt ent.lightSource ent.position.x ent.position.y
        e.x e.y) ∧
    ((handleSingleEntity s ent).grid ent.position.x
      ent.position.y).lightLevel = 1 := by
  constructor
  · intro e he
    rcases (scanAcc_good s ent).1 e he with ⟨hx, hy, _⟩ | ⟨_, _, hl⟩
    · exact Or.inl ⟨hx, hy⟩
    · exact Or.inr hl
  · show ((applyWrites s.grid (entityNewLight s ent)) ent.position.x
      ent.position.y).lightLevel = 1
    apply applyWrites_of_some
    unfold entityNewLight
    rw [lastWrite_append]
    have hscan : lastWrite (scanOut s ent) ent.position.x ent.position.y =
        some 1 := by
      have hdec : scanOut s ent =
          (mult.foldl
            (fun a m => calcOctantF (mkEnv s.sizeX s.sizeY
              (fun x y => doesTileBlock s x y) ent.lightSource ent.position m)
              (ent.lightSource.radius + 1) 1 1 0 a)
            ⟨[], []⟩).out ++
            [⟨ent.position.x, ent.position.y, 1⟩] := rfl
      rw [hdec, lastWrite_append]
      simp [lastWrite]
    rw [hscan]

/-- Witness for C5 at a concrete input: in the 5×5 scenario, the scan
entry `(1, 2, 1)` is away from the source, so the theorem pins its level
to exactly the formula, and the write-back leaves the source tile
`(2, 2)` at level exactly 1. -/
theorem c5_level_formula_witness :
    (((1 : ℤ) = 2 ∧ (2 : ℤ) = 2) ∨
      (⟨1, 2, 1⟩ : LitTile).lightLevel =
        lightAt ⟨2, false⟩ 2 2 (1 : ℤ) (2 : ℤ)) ∧
    ((handleSingleEntity scene5 ⟨⟨2, false⟩, ⟨2, 2⟩⟩).grid 2 2).lightLevel = 1 :=
  ⟨(c5_level_formula scene5 ⟨⟨2, false⟩, ⟨2, 2⟩⟩).1 ⟨1, 2, 1⟩
      (by with_unfolding_all decide),
    (c5_level_formula scene5 ⟨⟨2, false⟩, ⟨2, 2⟩⟩).2⟩

end LightMap

namespace LightMap

theorem scanOut_inB (sX sY : ℤ) (st : GameState) (ent : Entity)
    (hsx : st.sizeX = sX) (hsy : st.sizeY = sY)
    (hpos : InB sX sY ent.position.x ent.position.y) :
    ∀ e ∈ scanOut st ent, InB sX sY e.x e.y := by
  intro e he
  rcases (scanAcc_good st ent).1 e he with ⟨hx, hy, _⟩ | ⟨hin, _, _⟩
  · rw [hx, hy]
    exact hpos
  · rw [hsx, hsy] at hin
    exact hin

theorem entityNewLight_inB (sX sY : ℤ) (st : GameState) (ent : Entity)
    (hsx : st.sizeX = sX) (hsy : st.sizeY = sY)
    (hpos : InB sX sY ent.position.x ent.position.y)
    (hbuf : ∀ e ∈ st.lmTiles, InB sX sY e.x e.y) :
    ∀ e ∈ entityNewLight st ent, InB sX sY e.x e.y := by
  intro e he
  unfold entityNewLight at he
  rcases List.mem_append.1 he with h | h
  · unfold clear at h
    dsimp only at h
    rcases List.mem_map.1 h with ⟨e0, he0, rfl⟩
    exact hbuf e0 he0
  · exact scanOut_inB sX sY st ent hsx hsy hpos e h

theorem entityReads_inB (sX sY : ℤ) (st : GameState) (ent : Entity)
    (hsx : st.sizeX = sX) (hsy : st.sizeY = sY) :
    ∀ c ∈ entityReads st ent, InB sX sY c.1 c.2 := by
  intro c hc
  have h := (scanAcc_good st ent).2 c hc
  rw [hsx, hsy] at h
  exact h

theorem tickAccesses_aux (sX sY : ℤ) (l : List Entity) :
    ∀ (st : GameState) (w : List LitTile) (r : List (ℤ × ℤ)),
    st.sizeX = sX → st.sizeY = sY →
    (∀ ent ∈ l, InB sX sY ent.position.x ent.position.y) →
    (∀ e ∈ st.lmTiles, InB sX sY e.x e.y) →
    (∀ e ∈ w, InB sX sY e.x e.y) →
    (∀ c ∈ r, InB sX sY c.1 c.2) →
    (∀ e ∈ (l.foldl
        (fun p ent =>
          (handleSingleEntity p.1 ent,
           p.2.1 ++ entityNewLight p.1 ent,
           p.2.2 ++ entityReads p.1 ent))
        (st, (w, r))).2.1, InB sX sY e.x e.y) ∧
    (∀ c ∈ (l.foldl
        (fun p ent =>
          (handleSingleEntity p.1 ent,
           p.2.1 ++ entityNewLight p.1 ent,
           p.2.2 ++ entityReads p.1 ent))
        (st, (w, r))).2.2, InB sX sY c.1 c.2) := by
  induction l with
  | nil =>
    intro st w r _ _ _ _ hw hr
    exact ⟨hw, hr⟩
  | cons ent t ih =>
    intro st w r hsx hsy hpos hbuf hw hr
    refine ih (handleSingleEntity st ent) (w ++ entityNewLight st ent)
      (r ++ entityReads st ent) hsx hsy
      (fun e hme => hpos e (List.mem_cons_of_mem ent hme)) ?_ ?_ ?_
    · show ∀ e ∈ scanOut st ent, InB sX sY e.x e.y
      exact scanOut_inB sX sY st ent hsx hsy
        (hpos ent (List.mem_cons_self ent t))
    · intro e he
      rcases List.mem_append.1 he with h | h
      · exact hw e h
      · exact entityNewLight_inB sX sY st ent hsx hsy
          (hpos ent (List.mem_cons_self ent t)) hbuf e h
    · intro c hc
      rcases List.mem_append.1 hc with h | h
      · exact hr c h
      · exact entityReads_inB sX sY st ent hsx hsy c h

/-- C9: when every light source's position lies inside the grid bounds
(and every pending entry of the internal buffer does, which holds from
construction on), every tile write committed during an active tick and
every coordinate passed to `doesTileBlock` lies inside
`[0, tilesX) × [0, tilesY)`: the octant scan's bounds check guards every
coordinate it records or inspects, so no out-of-bounds tile access
occurs. -/
theorem c9_bounds_safety (s : GameState)
    (hpos : ∀ ent ∈ s.entities, InB s.sizeX s.sizeY ent.position.x
      ent.position.y)
    (hbuf : ∀ e ∈ s.lmTiles, InB s.sizeX s.sizeY e.x e.y) :
    (∀ e ∈ (tickAccesses s).1, InB s.sizeX s.sizeY e.x e.y) ∧
    (∀ c ∈ (tickAccesses s).2, InB s.sizeX s.sizeY c.1 c.2) := by
  unfold tickAccesses
  exact tickAccesses_aux s.sizeX s.sizeY s.entities s [] [] rfl rfl hpos hbuf
    (by simp) (by simp)

/-- Witness for C9 at a concrete input: the 5×5 scenario's single source
sits in bounds, and the first recorded access of its tick — the pending
write for the source tile — is in bounds. -/
theorem c9_bounds_safety_witness : InB 5 5 2 2 :=
  (c9_bounds_safety scene5 (by with_unfolding_all decide)
      (by with_unfolding_all decide)).1
    ⟨2, 2, 0⟩ (by with_unfolding_all decide)

end LightMap

namespace LightMap

theorem scanAcc_congr (s s' : GameState) (ent : Entity)
    (hx : s.sizeX = s'.sizeX) (hy : s.sizeY = s'.sizeY)
    (hb : ∀ x y, doesTileBlock s x y = doesTileBlock s' x y) :
    scanAcc s ent = scanAcc s' ent := by
  unfold scanAcc
  rw [hx, hy]
  have hfun : (fun x y => doesTileBlock s x y) =
      fun x y => doesTileBlock s' x y :=
    funext fun x => funext fun y => hb x y
  rw [hfun]

theorem hse_blockLight (s : GameState) (ent : Entity) (x y : ℤ) :
    doesTileBlock (handleSingleEntity s ent) x y = doesTileBlock s x y :=
  applyWrites_blockLight (entityNewLight s ent) s.grid x y

theorem update_active_single (t : GameState) (ent : Entity)
    (hA : t.isActive = true) (hE : t.entities = [ent]) :
    update t = { handleSingleEntity t ent with tilesLit := true } := by
  unfold update
  rw [hA, hE]
  rfl

theorem update_active (t : GameState) (hA : t.isActive = true) :
    update t =
      { t.entities.foldl handleSingleEntity t with tilesLit := true } := by
  unfold update
  rw [hA]
  rfl

theorem foldl_hse_sizeX (l : List Entity) (s : GameState) :
    (l.foldl handleSingleEntity s).sizeX = s.sizeX := by
  induction l generalizing s with
  | nil => rfl
  | cons ent t ih => exact ih (handleSingleEntity s ent)

theorem foldl_hse_sizeY (l : List Entity) (s : GameState) :
    (l.foldl handleSingleEntity s).sizeY = s.sizeY := by
  induction l generalizing s with
  | nil => rfl
  | cons ent t ih => exact ih (handleSingleEntity s ent)

theorem relight_idem (g : ℤ → ℤ → Tile) (T : List LitTile) (x y : ℤ) :
    ((applyWrites (applyWrites g T)
      ((T.map fun e => { e with lightLevel := 0 }) ++ T)) x y).lightLevel =
      ((applyWrites g T) x y).lightLevel := by
  cases hT : lastWrite T x y with
  | some lv =>
    have h2 : lastWrite ((T.map fun e => { e with lightLevel := 0 }) ++ T)
        x y = some lv := by
      rw [lastWrite_append, hT]
    rw [applyWrites_of_some _ _ _ _ lv h2, applyWrites_of_some _ _ _ _ lv hT]
  | none =>
    have h2 : lastWrite ((T.map fun e => { e with lightLevel := 0 }) ++ T)
        x y = none := by
      rw [lastWrite_append, hT]
      show lastWrite (T.map fun e => { e with lightLevel := 0 }) x y = none
      rw [lastWrite_zeroed, hT]
      rfl
    rw [applyWrites_of_none _ _ _ _ h2]

/-- C7: for a fixed map and a single stationary light source starting
from the constructor state of the accumulator, two consecutive active
ticks leave every tile with identical `lightLevel` values: the relight
computation is deterministic, and the second tick first zeroes exactly
the entries the first tick wrote and then rewrites them with the same
values, because the scan depends only on the (unchanged) `blockLight`
view of the grid. -/
theorem c7_static_idempotent (s : GameState) (ent : Entity)
    (hA : s.isActive = true) (hE : s.entities = [ent]) (hB : s.lmTiles = [])
    (x y : ℤ) :
    ((update (update s)).grid x y).lightLevel =
      ((update s).grid x y).lightLevel := by
  have h1 : update s = { handleSingleEntity s ent with tilesLit := true } :=
    update_active_single s ent hA hE
  have hgrid1 : (update s).grid = applyWrites s.grid (scanOut s ent) := by
    rw [h1]
    show applyWrites s.grid (entityNewLight s ent) = _
    unfold entityNewLight
    rw [hB]
    rfl
  have hA1 : (update s).isActive = true := by rw [h1]; exact hA
  have hE1 : (update s).entities = [ent] := by rw [h1]; exact hE
  have hlm1 : (update s).lmTiles = scanOut s ent := by rw [h1]; rfl
  have h2 : update (update s) =
      { handleSingleEntity (update s) ent with tilesLit := true } :=
    update_active_single (update s) ent hA1 hE1
  have hcongr : scanAcc (update s) ent = scanAcc s ent := by
    apply scanAcc_congr
    · rw [h1]; rfl
    · rw [h1]; rfl
    · intro a b
      rw [h1]
      exact hse_blockLight s ent a b
  have hso : scanOut (update s) ent = scanOut s ent := by
    unfold scanOut
    rw [hcongr]
  rw [h2]
  show ((applyWrites (update s).grid
    (entityNewLight (update s) ent)) x y).lightLevel = _
  unfold entityNewLight
  rw [hlm1, hso, hgrid1]
  show ((applyWrites (applyWrites s.grid (scanOut s ent))
    (((scanOut s ent).map fun e => { e with lightLevel := 0 }) ++
      scanOut s ent)) x y).lightLevel = _
  rw [relight_idem]

/-- Witness for C7 at a concrete input: running the 5×5 scenario's tick
twice leaves tile `(1, 1)` at the same light level as one tick. -/
theorem c7_static_idempotent_witness :
    ((update (update scene5)).grid 1 1).lightLevel =
      ((update scene5).grid 1 1).lightLevel :=
  c7_static_idempotent scene5 ⟨⟨2, false⟩, ⟨2, 2⟩⟩ rfl rfl rfl 1 1

theorem foldl_hse_blockLight (l : List Entity) (s : GameState) (x y : ℤ) :
    doesTileBlock (l.foldl handleSingleEntity s) x y =
      doesTileBlock s x y := by
  induction l generalizing s with
  | nil => rfl
  | cons ent t ih =>
    rw [List.foldl_cons, ih (handleSingleEntity s ent),
      hse_blockLight s ent x y]

/-- C8: when two or more sources processed in the same active tick
assign light to the same tile — some entity before the last one and the
last one both record a nonzero level for it — the tile's final level
after the tick equals the last value the last-processed entity's scan
records for it: each entity's write loop assigns directly into the map,
with no accumulation, maximum, or sum across sources. -/
theorem c8_last_entity_wins (s : GameState) (front : List Entity)
    (eLast : Entity) (hA : s.isActive = true)
    (hE : s.entities = front ++ [eLast]) (x y : ℤ) (v : ℚ)
    (_hprev : ∃ ePrev ∈ front, ∃ lv,
      lastWrite (scanOut s ePrev) x y = some lv ∧ ¬lv = 0)
    (h2 : lastWrite (scanOut s eLast) x y = some v) (_h2nz : ¬v = 0) :
    ((update s).grid x y).lightLevel = v := by
  have hu : update s =
      { s.entities.foldl handleSingleEntity s with tilesLit := true } :=
    update_active s hA
  rw [hu, hE, List.foldl_append]
  show ((applyWrites (front.foldl handleSingleEntity s).grid
    (entityNewLight (front.foldl handleSingleEntity s) eLast))
      x y).lightLevel = v
  apply applyWrites_of_some
  unfold entityNewLight
  rw [lastWrite_append]
  have hscan2 : lastWrite (scanOut (front.foldl handleSingleEntity s) eLast)
      x y = some v := by
    have hc : scanAcc (front.foldl handleSingleEntity s) eLast =
        scanAcc s eLast :=
      scanAcc_congr _ _ eLast (foldl_hse_sizeX front s)
        (foldl_hse_sizeY front s) (fun a b => foldl_hse_blockLight front s a b)
    show lastWrite (scanAcc (front.foldl handleSingleEntity s) eLast).out
      x y = some v
    rw [hc]
    exact h2
  rw [hscan2]

/-- Witness for C8 at a concrete input: on the 5×5 map with the three
sources `entC` at `(2, 1)`, `entA` at `(1, 2)` and the gradient source
`entB` at `(3, 2)` processed in that order, `entA`'s scan and `entB`'s
scan both assign light to tile `(2, 2)` (levels 1 and 3/4), and the tick
leaves the tile at `entB`'s value 3/4 — the last entity processed wins. -/
theorem c8_last_entity_wins_witness :
    ((update sceneThree).grid 2 2).lightLevel = 3 / 4 :=
  c8_last_entity_wins sceneThree [entC, entA] entB rfl rfl 2 2 (3 / 4)
    ⟨entA, by with_unfolding_all decide,
      ⟨1, by with_unfolding_all decide, by with_unfolding_all decide⟩⟩
    (by with_unfolding_all decide) (by with_unfolding_all decide)

end LightMap
